import Mathlib

/-!
Verification of the Shandris cognitive core (Go sources under
ShandrisAI/server/cognitive and the persona-system snapshot).

Modelling conventions:
* Go float64 is modelled as ℚ (the arithmetic in scope is exact: sums,
  products, divisions and comparisons; the exponential time-decay factors
  are abstracted as explicit ℚ parameters, since every property in scope
  holds for an arbitrary value of those factors).
* Go map[string]T is modelled as an association list List (String × T)
  whose first matching entry is the binding; a read of a missing key of a
  map[string]float64 yields 0, as in Go.
* Methods that mutate their receiver are modelled as functions returning
  the updated value.
-/

namespace Shandris

/-- First binding of key `k`, if any (Go: `v, ok := m[k]`). -/
def lookupOpt {α : Type} (m : List (String × α)) (k : String) : Option α :=
  (m.find? (fun p => p.1 == k)).map (fun p => p.2)

/-- Map of scores keyed by mood/topic name (Go map[string]float64). -/
abbrev ScoreMap := List (String × ℚ)

/-- Read of a float64 map; missing keys read as 0, as in Go. -/
def lookupQ (m : ScoreMap) (k : String) : ℚ :=
  (lookupOpt m k).getD 0

/- String constants used throughout the sources. -/

def flirtyS : String := "flirty"

def sassyS : String := "sassy"

def intellectualS : String := "intellectual"

def protectiveS : String := "protective"

def playfulS : String := "playful"

def neutralS : String := "neutral"

def sapphicS : String := "sapphic"

def caringS : String := "caring"

/-- SapphicContext (context_detection / part_010). -/
structure SapphicContext where
  IsRomantic : Bool
  IsFlirty : Bool
  IsPlatonic : Bool
  Intensity : ℚ
  AllowsFlirting : Bool
  deriving DecidableEq

/-- ContextAnalysis (context_detection.go). -/
structure ContextAnalysis where
  PrimaryContext : String
  SecondaryContext : String
  IsEmotional : Bool
  IsTechnical : Bool
  SapphicContext : SapphicContext
  Intensity : ℚ
  PreviousScores : ScoreMap
  ContextStack : List String
  deriving DecidableEq

/-! NormalizationSystem (normalization.go).  The four weight tables are the
constants installed by NewNormalizationSystem; they are never written
after construction. -/

def nsWeights : ScoreMap :=
  [(sapphicS, 1), (intellectualS, 4/5), (sassyS, 7/10),
   (protectiveS, 3/5), (playfulS, 1/2), (neutralS, 3/10)]

def nsContextWeights : ScoreMap :=
  [("emotional", 1), ("technical", 9/10), ("social", 4/5),
   ("casual", 3/5), ("professional", 7/10)]

def nsMinThresholds : ScoreMap :=
  [(flirtyS, 3/10), (sassyS, 1/5), (intellectualS, 3/20),
   (protectiveS, 1/4), (playfulS, 1/10)]

def nsMaxThresholds : ScoreMap :=
  [(flirtyS, 4/5), (sassyS, 9/10), (intellectualS, 19/20),
   (protectiveS, 17/20), (playfulS, 7/10)]

/-- getContextWeight (normalization.go, lines 104-129).  The early
`return 0.0` for a gated flirty mood is the first branch. -/
def getContextWeight (mood : String) (context : ContextAnalysis) : ℚ :=
  if mood == flirtyS && !context.SapphicContext.AllowsFlirting then 0
  else
    let w0 : ℚ := 1
    let w1 : ℚ :=
      if mood == flirtyS && context.SapphicContext.IsRomantic then w0 * (6/5) else w0
    let w2 : ℚ :=
      if context.IsEmotional && (mood == protectiveS || mood == caringS)
      then w1 * (13/10) else w1
    let w3 : ℚ :=
      if context.IsEmotional && mood == sassyS then w2 * (7/10) else w2
    w3

/-- Loop body of NormalizeScores (normalization.go, lines 52-66): weight and
context weight, then the minimum-threshold floor, then the maximum-threshold
cap. -/
def normalizeOne (context : ContextAnalysis) (mood : String) (score : ℚ) : ℚ :=
  let weight := lookupQ nsWeights mood
  let contextWeight := getContextWeight mood context
  let v0 := score * weight * contextWeight
  let v1 :=
    match lookupOpt nsMinThresholds mood with
    | some mn => if v0 < mn then 0 else v0
    | none => v0
  match lookupOpt nsMaxThresholds mood with
  | some mx => if v1 > mx then mx else v1
  | none => v1

/-- Loop body of smoothTransitions (normalization.go, lines 78-99). -/
def smoothOne (context : ContextAnalysis) (mood : String) (score : ℚ) : ℚ :=
  let prevScore := lookupQ context.PreviousScores mood
  let maxChange : ℚ := if context.IsEmotional then 1/2 else 3/10
  let diff := score - prevScore
  if |diff| > maxChange then
    (if diff > 0 then prevScore + maxChange else prevScore - maxChange)
  else score

/-- smoothTransitions (normalization.go, lines 75-102). -/
def smoothTransitions (scores : ScoreMap) (context : ContextAnalysis) : ScoreMap :=
  scores.map (fun p => (p.1, smoothOne context p.1 p.2))

/-- Sum of the values of a score map (the `total` loop of normalizeSum). -/
def sumScores : ScoreMap → ℚ
  | [] => 0
  | p :: rest => p.2 + sumScores rest

/-- normalizeSum (normalization.go, lines 131-146): proportional rescale
only when the total exceeds 1. -/
def normalizeSum (scores : ScoreMap) : ScoreMap :=
  let total := sumScores scores
  if total > 1 then scores.map (fun p => (p.1, p.2 / total)) else scores

/-- NormalizeScores (normalization.go, lines 48-73). -/
def NormalizeScores (scores : ScoreMap) (context : ContextAnalysis) : ScoreMap :=
  let normalized := scores.map (fun p => (p.1, normalizeOne context p.1 p.2))
  normalizeSum (smoothTransitions normalized context)

/-! Helper lemmas about lookups. -/

theorem lookupQ_zero_of_all (l : ScoreMap) (k : String)
    (h : ∀ p ∈ l, p.1 = k → p.2 = 0) : lookupQ l k = 0 := by
  unfold lookupQ lookupOpt
  cases hfind : List.find? (fun p => p.1 == k) l with
  | none => rfl
  | some q =>
    have hmem : q ∈ l := List.mem_of_find?_eq_some hfind
    have hq := List.find?_some hfind
    have : q.2 = 0 := h q hmem (by simpa using hq)
    simp [this]

theorem lookupQ_normalizeSum_zero (l : ScoreMap) (k : String)
    (h : ∀ p ∈ l, p.1 = k → p.2 = 0) : lookupQ (normalizeSum l) k = 0 := by
  apply lookupQ_zero_of_all
  intro p hp hk
  simp only [normalizeSum] at hp
  by_cases htot : sumScores l > 1
  · rw [if_pos htot] at hp
    obtain ⟨q, hq, rfl⟩ := List.mem_map.mp hp
    dsimp only at hk ⊢
    rw [h q hq hk, zero_div]
  · rw [if_neg htot] at hp
    exact h p hp hk

theorem getContextWeight_flirty_gated (context : ContextAnalysis)
    (hflirt : context.SapphicContext.AllowsFlirting = false) :
    getContextWeight flirtyS context = 0 := by
  unfold getContextWeight
  rw [if_pos (by simp [hflirt])]

theorem normalizeOne_flirty_gated (context : ContextAnalysis)
    (hflirt : context.SapphicContext.AllowsFlirting = false) (v : ℚ) :
    normalizeOne context flirtyS v = 0 := by
  have hmin : lookupOpt nsMinThresholds flirtyS = some (3/10 : ℚ) := rfl
  have hmax : lookupOpt nsMaxThresholds flirtyS = some (4/5 : ℚ) := rfl
  simp only [normalizeOne, getContextWeight_flirty_gated context hflirt,
    mul_zero, hmin, hmax]
  norm_num

theorem smoothOne_flirty_zero (context : ContextAnalysis)
    (hprev : |lookupQ context.PreviousScores flirtyS| ≤
      (if context.IsEmotional then (1 : ℚ)/2 else 3/10)) :
    smoothOne context flirtyS 0 = 0 := by
  unfold smoothOne
  have h0 : |0 - lookupQ context.PreviousScores flirtyS| =
      |lookupQ context.PreviousScores flirtyS| := by
    rw [zero_sub, abs_neg]
  rw [if_neg]
  rw [h0]
  exact not_lt.mpr hprev

/-- C1 (amended): with flirting disallowed and the previously recorded
flirty score within the smoothing cap, NormalizeScores maps "flirty" to 0. -/
theorem C1_flirty_normalized_zero (scores : ScoreMap) (context : ContextAnalysis)
    (hflirt : context.SapphicContext.AllowsFlirting = false)
    (hprev : |lookupQ context.PreviousScores flirtyS| ≤
      (if context.IsEmotional then (1 : ℚ)/2 else 3/10)) :
    lookupQ (NormalizeScores scores context) flirtyS = 0 := by
  simp only [NormalizeScores]
  apply lookupQ_normalizeSum_zero
  intro q hq hq1
  unfold smoothTransitions at hq
  obtain ⟨r, hr, rfl⟩ := List.mem_map.mp hq
  obtain ⟨s, hs, rfl⟩ := List.mem_map.mp hr
  dsimp only at hq1 ⊢
  rw [hq1, normalizeOne_flirty_gated context hflirt]
  exact smoothOne_flirty_zero context hprev

/-- Gated context with a large previously recorded flirty score. -/
def ctxGatedPrev : ContextAnalysis :=
  { PrimaryContext := ""
    SecondaryContext := ""
    IsEmotional := false
    IsTechnical := false
    SapphicContext :=
      { IsRomantic := false, IsFlirty := false, IsPlatonic := false,
        Intensity := 0, AllowsFlirting := false }
    Intensity := 0
    PreviousScores := [(flirtyS, 9/10)]
    ContextStack := [] }

def scoresAllFlirty : ScoreMap := [(flirtyS, 1)]

/-- C1 (counterexample): with AllowsFlirting = false but a previous flirty
score of 0.9, NormalizeScores returns 0.6 for "flirty", not 0 — the
smoothing step pulls the zeroed score back toward the previous one. -/
theorem C1_counterexample :
    ctxGatedPrev.SapphicContext.AllowsFlirting = false ∧
    lookupQ (NormalizeScores scoresAllFlirty ctxGatedPrev) flirtyS = 3/5 ∧
    (3/5 : ℚ) ≠ 0 := by
  refine ⟨rfl, ?_, by norm_num⟩
  simp [NormalizeScores, smoothTransitions, normalizeOne, smoothOne,
    getContextWeight, normalizeSum, sumScores, lookupQ, lookupOpt,
    nsWeights, nsMinThresholds, nsMaxThresholds, scoresAllFlirty,
    ctxGatedPrev, flirtyS, neutralS, sassyS, protectiveS, caringS,
    sapphicS, intellectualS, playfulS, List.find?]
  norm_num [lt_abs, abs_le]

/-- C1 witness: concrete gated context with a small previous flirty score. -/
def ctxGatedSmallPrev : ContextAnalysis :=
  { PrimaryContext := ""
    SecondaryContext := ""
    IsEmotional := false
    IsTechnical := false
    SapphicContext :=
      { IsRomantic := false, IsFlirty := false, IsPlatonic := false,
        Intensity := 0, AllowsFlirting := false }
    Intensity := 0
    PreviousScores := [(flirtyS, 1/5)]
    ContextStack := [] }

theorem C1_flirty_normalized_zero_witness :
    ctxGatedSmallPrev.SapphicContext.AllowsFlirting = false ∧
    lookupQ (NormalizeScores scoresAllFlirty ctxGatedSmallPrev) flirtyS = 0 :=
  ⟨rfl, C1_flirty_normalized_zero scoresAllFlirty ctxGatedSmallPrev rfl (by
    rw [show lookupQ ctxGatedSmallPrev.PreviousScores flirtyS = 1/5 from rfl,
      show ctxGatedSmallPrev.IsEmotional = false from rfl]
    norm_num [abs_le])⟩

/-! C7: idempotence of normalization. -/

theorem sumScores_map_div (l : ScoreMap) (c : ℚ) :
    sumScores (l.map (fun p => (p.1, p.2 / c))) = sumScores l / c := by
  induction l with
  | nil => simp [sumScores]
  | cons a t ih => simp [sumScores, ih, add_div]

theorem normalizeSum_eq (l : ScoreMap) :
    normalizeSum l =
      if sumScores l > 1 then l.map (fun p => (p.1, p.2 / sumScores l)) else l :=
  rfl

/-- C7 (amended): the final rescaling step normalizeSum is idempotent — it
is the identity on vectors whose entries sum to at most 1, and applying it
twice always equals applying it once.  (Full NormalizeScores is not
idempotent: the trait and context weights are re-applied on every call,
see the counterexample.) -/
theorem C7_normalizeSum_idempotent (scores : ScoreMap) :
    (sumScores scores ≤ 1 → normalizeSum scores = scores) ∧
    normalizeSum (normalizeSum scores) = normalizeSum scores := by
  constructor
  · intro h
    rw [normalizeSum_eq, if_neg (not_lt.mpr h)]
  · by_cases h : sumScores scores > 1
    · have hne : sumScores scores ≠ 0 :=
        ne_of_gt (lt_trans zero_lt_one h)
      have hsum1 : sumScores (normalizeSum scores) = 1 := by
        rw [normalizeSum_eq, if_pos h, sumScores_map_div, div_self hne]
      rw [normalizeSum_eq (normalizeSum scores), hsum1,
        if_neg (lt_irrefl (1 : ℚ))]
    · have hid : normalizeSum scores = scores := by
        rw [normalizeSum_eq, if_neg h]
      rw [hid, hid]

/-- Context with no previous scores and no gating (for the C7 counterexample). -/
def ctxPlain : ContextAnalysis :=
  { PrimaryContext := ""
    SecondaryContext := ""
    IsEmotional := false
    IsTechnical := false
    SapphicContext :=
      { IsRomantic := false, IsFlirty := false, IsPlatonic := false,
        Intensity := 0, AllowsFlirting := false }
    Intensity := 0
    PreviousScores := []
    ContextStack := [] }

def scoresHalfNeutral : ScoreMap := [(neutralS, 1/2)]

/-- C7 (counterexample): a vector with sum 1/2 ≤ 1 on which applying
NormalizeScores twice differs from applying it once — the 0.3 trait weight
for "neutral" is re-applied on the second call. -/
theorem C7_counterexample :
    sumScores scoresHalfNeutral ≤ 1 ∧
    NormalizeScores scoresHalfNeutral ctxPlain = [(neutralS, 3/20)] ∧
    NormalizeScores (NormalizeScores scoresHalfNeutral ctxPlain) ctxPlain =
      [(neutralS, 9/200)] ∧
    ([(neutralS, 9/200)] : ScoreMap) ≠ [(neutralS, 3/20)] := by
  have h1 : NormalizeScores scoresHalfNeutral ctxPlain = [(neutralS, 3/20)] := by
    simp [NormalizeScores, smoothTransitions, normalizeOne, smoothOne,
      getContextWeight, normalizeSum, sumScores, lookupQ, lookupOpt,
      nsWeights, nsMinThresholds, nsMaxThresholds, scoresHalfNeutral,
      ctxPlain, neutralS, flirtyS, sassyS, protectiveS, caringS,
      sapphicS, intellectualS, playfulS, List.find?]
    norm_num [lt_abs, abs_le]
  have h2 : NormalizeScores [(neutralS, 3/20)] ctxPlain = [(neutralS, 9/200)] := by
    simp [NormalizeScores, smoothTransitions, normalizeOne, smoothOne,
      getContextWeight, normalizeSum, sumScores, lookupQ, lookupOpt,
      nsWeights, nsMinThresholds, nsMaxThresholds,
      ctxPlain, neutralS, flirtyS, sassyS, protectiveS, caringS,
      sapphicS, intellectualS, playfulS, List.find?]
    norm_num [lt_abs, abs_le]
  refine ⟨by norm_num [scoresHalfNeutral, sumScores], h1, ?_, by norm_num⟩
  rw [h1]
  exact h2

def scoresTenthNeutral : ScoreMap := [(neutralS, 1/10)]

theorem C7_normalizeSum_idempotent_witness :
    normalizeSum scoresTenthNeutral = scoresTenthNeutral ∧
    normalizeSum (normalizeSum scoresTenthNeutral) = normalizeSum scoresTenthNeutral :=
  ⟨(C7_normalizeSum_idempotent scoresTenthNeutral).1
      (by norm_num [scoresTenthNeutral, sumScores]),
   (C7_normalizeSum_idempotent scoresTenthNeutral).2⟩

/-! Mood engine (mood.go). -/

/-- A Go `any` value stored in a context map; only the shapes the mood
engine inspects are distinguished. -/
inductive GoVal where
  | num (q : ℚ)
  | str (s : String)
  | strList (l : List String)
  | other
  deriving DecidableEq

/-- Go map[string]any. -/
abbrev GoCtx := List (String × GoVal)

/-- Go type assertion `v.(float64)`. -/
def GoVal.asNum : GoVal → Option ℚ
  | .num q => some q
  | _ => none

/-- MoodState (types.go / part snapshot). -/
structure MoodState where
  Primary : String
  Secondary : String
  Intensity : ℚ
  Timestamp : ℚ
  Context : GoCtx
  deriving DecidableEq

/-- MoodEngineImpl (mood.go).  The Modifiers and Thresholds maps are the
constants installed by NewMoodEngine; they are never written afterwards, so
they are modelled as the constant maps moodModifiers / moodThresholds. -/
structure MoodEngineImpl where
  CurrentState : MoodState
  History : List MoodState
  deriving DecidableEq

def decayRateS : String := "decay_rate"

def changeThreshS : String := "change_thresh"

def maxIntensityS : String := "max_intensity"

def moodShiftS : String := "mood_shift"

def intensityCapS : String := "intensity_cap"

def moodModifiers : ScoreMap :=
  [(decayRateS, 1/10), (changeThreshS, 3/10), (maxIntensityS, 1)]

def moodThresholds : ScoreMap :=
  [(moodShiftS, 2/5), (intensityCapS, 9/10)]

/-- NewMoodEngine (mood.go); `t0` stands for the construction time. -/
def NewMoodEngine (t0 : ℚ) : MoodEngineImpl :=
  { CurrentState :=
      { Primary := neutralS, Secondary := "", Intensity := 1/2,
        Timestamp := t0, Context := [] }
    History := [] }

/-- Character-level: `needle` occurs at the front of `hay`. -/
def charsHasPre : List Char → List Char → Bool
  | [], _ => true
  | _ :: _, [] => false
  | a :: as, b :: bs => a == b && charsHasPre as bs

/-- Character-level substring occurrence. -/
def charsHasSub (needle : List Char) : List Char → Bool
  | [] => needle.isEmpty
  | c :: rest => charsHasPre needle (c :: rest) || charsHasSub needle rest

/-- Go strings.Contains hay needle. -/
def strContains (hay needle : String) : Bool :=
  charsHasSub needle.toList hay.toList

/-- containsKeyword (mood.go, lines 224-231). -/
def containsKeyword (keywords : List String) (target : String) : Bool :=
  keywords.any (fun k => strContains k.toLower target.toLower)

def textS : String := "text"

def topicsS : String := "topics"

def sentimentS : String := "sentiment"

def intensityS : String := "intensity"

def userMoodS : String := "user_mood"

def loveS : String := "love"

def happyS : String := "happy"

def hateS : String := "hate"

def sadS : String := "sad"

def veryS : String := "very"

def reallyS : String := "really"

def excitedS : String := "excited"

def angryS : String := "angry"

def negativeS : String := "negative"

/-- extractKeywords (mood.go): lowercase whitespace-split of the "text"
entry (Go strings.Fields), then any "topics" string list. -/
def extractKeywords (context : GoCtx) : List String :=
  let ks :=
    match lookupOpt context textS with
    | some (.str text) =>
        (text.toLower.split (fun c => c.isWhitespace)).filter (fun s => !s.isEmpty)
    | _ => []
  match lookupOpt context topicsS with
  | some (.strList topics) => ks ++ topics
  | _ => ks

/-- calculateSentiment (mood.go, lines 247-265). -/
def calculateSentiment (context : GoCtx) : ℚ :=
  let s1 : ℚ :=
    match lookupOpt context sentimentS with
    | some (.num v) => v
    | _ => 0
  let s2 :=
    match lookupOpt context textS with
    | some (.str text) =>
        let t := text.toLower
        let a := if strContains t loveS || strContains t happyS then s1 + 3/10 else s1
        if strContains t hateS || strContains t sadS then a - 3/10 else a
    | _ => s1
  max (-1) (min 1 s2)

/-- calculateIntensity (mood.go, lines 267-282); base intensity 0.5. -/
def calculateIntensity (context : GoCtx) : ℚ :=
  let i1 : ℚ :=
    match lookupOpt context intensityS with
    | some (.num v) => v
    | _ => 1/2
  let i2 :=
    match lookupOpt context textS with
    | some (.str text) =>
        if strContains text.toLower veryS || strContains text.toLower reallyS
        then i1 + 1/5 else i1
    | _ => i1
  min 1 i2

/-- extractUserMood (mood.go, lines 284-299). -/
def extractUserMood (context : GoCtx) : String :=
  match lookupOpt context userMoodS with
  | some (.str mood) => mood
  | _ =>
    match lookupOpt context textS with
    | some (.str text) =>
        let t := text.toLower
        if strContains t happyS || strContains t excitedS then happyS
        else if strContains t sadS || strContains t angryS then negativeS
        else neutralS
    | _ => neutralS

/-- EmotionalContext (types.go).  The recursive PriorContext pointer is
modelled as Option Unit: the engine only ever tests it against nil (and
getPriorContext always returns nil). -/
structure EmotionalContext where
  PrimaryEmotion : String
  Sentiment : ℚ
  Intensity : ℚ
  Keywords : List String
  UserMood : String
  PriorContext : Option Unit
  SapphicContext : SapphicContext
  IsEmotional : Bool
  IsTechnical : Bool
  Timestamp : ℚ
  RawInput : String
  ThemeScores : ScoreMap
  UserContext : GoCtx
  EmotionalTone : String

/-- getPriorContext (mood.go, lines 301-308): returns nil on both branches. -/
def getPriorContext (_m : MoodEngineImpl) : Option Unit := none

/-- getCurrentSapphicContext (mood.go, lines 328-331): the zero value. -/
def getCurrentSapphicContext (_m : MoodEngineImpl) : SapphicContext :=
  { IsRomantic := false, IsFlirty := false, IsPlatonic := false,
    Intensity := 0, AllowsFlirting := false }

/-- getCurrentEmotionalTone (mood.go, lines 333-336). -/
def getCurrentEmotionalTone (_m : MoodEngineImpl) : String := neutralS

/-- analyzeEmotionalContext (mood.go, lines 198-221); `now` stands for
time.Now(). -/
def analyzeEmotionalContext (m : MoodEngineImpl) (context : GoCtx) (now : ℚ) :
    EmotionalContext :=
  { PrimaryEmotion := m.CurrentState.Primary
    Sentiment := calculateSentiment context
    Intensity := calculateIntensity context
    Keywords := extractKeywords context
    UserMood := extractUserMood context
    PriorContext := getPriorContext m
    SapphicContext := getCurrentSapphicContext m
    IsEmotional := true
    IsTechnical := false
    Timestamp := now
    RawInput := ""
    ThemeScores := []
    UserContext := context
    EmotionalTone := getCurrentEmotionalTone m }

/-- MoodPattern (types.go). -/
structure MoodPattern where
  Keywords : List String
  Sentiment : ℚ
  MoodShift : String
  Intensity : ℚ
  Decay : ℚ
  Requirements : List String
  Exclusions : List String

/-- The fixed pattern catalog of determinePrimaryMood (mood.go, lines
69-105), in declaration order. -/
def moodPatterns : List (String × MoodPattern) :=
  [(playfulS,
    { Keywords := ["haha", "lol", "😂", "fun", "play", "joke", "tease"],
      Sentiment := 7/10, MoodShift := playfulS, Intensity := 3/5, Decay := 1/5,
      Requirements := [], Exclusions := [] }),
   (sassyS,
    { Keywords := ["actually", "well_actually", "oh_really", "sure_jan", "whatever"],
      Sentiment := 3/10, MoodShift := sassyS, Intensity := 4/5, Decay := 1/10,
      Requirements := [], Exclusions := [] }),
   (flirtyS,
    { Keywords := ["cute", "pretty", "beautiful", "hot", "gorgeous", "flirt"],
      Sentiment := 4/5, MoodShift := flirtyS, Intensity := 7/10, Decay := 3/20,
      Requirements := [], Exclusions := [] }),
   (intellectualS,
    { Keywords := ["think", "theory", "quantum", "algorithm", "complex", "interesting"],
      Sentiment := 2/5, MoodShift := intellectualS, Intensity := 3/5, Decay := 1/20,
      Requirements := [], Exclusions := [] }),
   (protectiveS,
    { Keywords := ["help", "protect", "safe", "careful", "worry", "concern"],
      Sentiment := 1/5, MoodShift := protectiveS, Intensity := 1/2, Decay := 3/10,
      Requirements := [], Exclusions := [] })]

/-- calculateMoodScore (mood.go, lines 124-148).  The exponential pattern
decay exp(-Decay·Δt) is abstracted as the parameter patDecayFactor; it is
only consulted when PriorContext is non-nil (it never is in the engine,
since getPriorContext returns nil). -/
def calculateMoodScore (pattern : MoodPattern) (context : EmotionalContext)
    (patDecayFactor : ℚ) : ℚ :=
  let keywordScore := pattern.Keywords.foldl
    (fun acc kw => if containsKeyword context.Keywords kw then acc + 1/5 else acc) 0
  let sentimentAlignment := 1 - |pattern.Sentiment - context.Sentiment|
  let intensityFactor := min (context.Intensity * pattern.Intensity) 1
  let decayFactor := if context.PriorContext.isSome then patDecayFactor else 1
  (keywordScore * (2/5) + sentimentAlignment * (3/10) + intensityFactor * (3/10))
    * decayFactor

/-- applyPersonalityBias (mood.go, lines 150-164). -/
def personalityBiases : ScoreMap :=
  [(sassyS, 1/5), (intellectualS, 3/20), (flirtyS, 1/10)]

def applyPersonalityBias (scores : ScoreMap) : ScoreMap :=
  scores.map (fun p =>
    match lookupOpt personalityBiases p.1 with
    | some bias => (p.1, min (p.2 + bias) 1)
    | none => p)

/-- The per-mood score adjustment inside the selectDominantMood loop
(mood.go, lines 172-180): user-mood boost, then the flirty gate factor. -/
def selScore (context : EmotionalContext) (mood : String) (score : ℚ) : ℚ :=
  let s1 := if mood == context.UserMood then score * (6/5) else score
  if mood == flirtyS && !context.SapphicContext.AllowsFlirting then s1 * (1/2) else s1

/-- The argmax loop of selectDominantMood (mood.go, lines 166-185),
carrying (highestScore, dominantMood). -/
def selFold (context : EmotionalContext) (scores : ScoreMap) (acc : ℚ × String) :
    ℚ × String :=
  scores.foldl (fun acc p =>
    let score := selScore context p.1 p.2
    if score > acc.1 then (score, p.1) else acc) acc

/-- selectDominantMood (mood.go, lines 166-196). -/
def selectDominantMood (m : MoodEngineImpl) (scores : ScoreMap)
    (context : EmotionalContext) : String :=
  let r := selFold context scores (-1, neutralS)
  if r.1 < lookupQ moodThresholds moodShiftS then
    (if m.CurrentState.Intensity > lookupQ moodThresholds moodShiftS
     then m.CurrentState.Primary else neutralS)
  else r.2

/-- determinePrimaryMood (mood.go, lines 67-122). -/
def determinePrimaryMood (m : MoodEngineImpl) (context : GoCtx)
    (now patDecayFactor : ℚ) : String :=
  let emotionalContext := analyzeEmotionalContext m context now
  let moodScores := moodPatterns.map
    (fun p => (p.1, calculateMoodScore p.2 emotionalContext patDecayFactor))
  selectDominantMood m (applyPersonalityBias moodScores) emotionalContext

/-- UpdateMood (mood.go, lines 37-65).  `now` stands for time.Now() and
`decayFactor` for exp(-decay_rate · hours since the last update); the
always-nil error return is dropped. -/
def UpdateMood (m : MoodEngineImpl) (context : GoCtx)
    (now decayFactor patDecayFactor : ℚ) : MoodEngineImpl :=
  let newIntensity0 := m.CurrentState.Intensity * decayFactor
  let newIntensity1 := context.foldl
    (fun acc p =>
      match p.2.asNum with
      | some val => acc + val * lookupQ moodModifiers changeThreshS
      | none => acc) newIntensity0
  let newIntensity2 :=
    max 0 (min newIntensity1 (lookupQ moodModifiers maxIntensityS))
  { CurrentState :=
      { Primary := determinePrimaryMood m context now patDecayFactor
        Secondary := ""
        Intensity := newIntensity2
        Timestamp := now
        Context := context }
    History := m.History ++ [m.CurrentState] }

/-- C3: after any UpdateMood — for every starting engine state, every
context map (numeric or not), and arbitrary decay factors — the current
intensity lies in [0, max_intensity] with max_intensity = 1. -/
theorem C3_intensity_clamped (m : MoodEngineImpl) (context : GoCtx)
    (now decayFactor patDecayFactor : ℚ) :
    0 ≤ (UpdateMood m context now decayFactor patDecayFactor).CurrentState.Intensity ∧
    (UpdateMood m context now decayFactor patDecayFactor).CurrentState.Intensity ≤
      lookupQ moodModifiers maxIntensityS ∧
    lookupQ moodModifiers maxIntensityS = 1 := by
  refine ⟨le_max_left 0 _, ?_, rfl⟩
  have hcap : (0 : ℚ) ≤ lookupQ moodModifiers maxIntensityS := by
    rw [show lookupQ moodModifiers maxIntensityS = 1 from rfl]
    norm_num
  exact max_le hcap (min_le_right _ _)

/-- One input to an UpdateMood call: the context map plus the abstracted
time-dependent quantities. -/
structure MoodInput where
  context : GoCtx
  now : ℚ
  decayFactor : ℚ
  patDecayFactor : ℚ

def applyInput (m : MoodEngineImpl) (i : MoodInput) : MoodEngineImpl :=
  UpdateMood m i.context i.now i.decayFactor i.patDecayFactor

def runUpdates (m : MoodEngineImpl) (inputs : List MoodInput) : MoodEngineImpl :=
  inputs.foldl applyInput m

/-- The sequence of current states observed just before each update. -/
def histTrace (m : MoodEngineImpl) : List MoodInput → List MoodState
  | [] => []
  | i :: rest => m.CurrentState :: histTrace (applyInput m i) rest

theorem applyInput_history (m : MoodEngineImpl) (i : MoodInput) :
    (applyInput m i).History = m.History ++ [m.CurrentState] := rfl

theorem runUpdates_history (inputs : List MoodInput) (m : MoodEngineImpl) :
    (runUpdates m inputs).History = m.History ++ histTrace m inputs := by
  induction inputs generalizing m with
  | nil => simp [runUpdates, histTrace]
  | cons i rest ih =>
    show (runUpdates (applyInput m i) rest).History = _
    rw [ih, applyInput_history, histTrace, List.append_assoc]
    rfl

theorem histTrace_length (inputs : List MoodInput) (m : MoodEngineImpl) :
    (histTrace m inputs).length = inputs.length := by
  induction inputs generalizing m with
  | nil => rfl
  | cons i rest ih => simp [histTrace, ih]

theorem histTrace_get (inputs : List MoodInput) (m : MoodEngineImpl) (i : ℕ)
    (h : i < inputs.length) :
    (histTrace m inputs).get? i = some (runUpdates m (inputs.take i)).CurrentState := by
  induction inputs generalizing m i with
  | nil => simp at h
  | cons x rest ih =>
    cases i with
    | zero => simp [histTrace, runUpdates]
    | succ j =>
      show (histTrace (applyInput m x) rest).get? j = _
      rw [ih (applyInput m x) j (by simpa using h)]
      rfl

/-- C6: starting from a freshly constructed engine, after any sequence of
updates the history has exactly one entry per update, and its i-th entry is
the current state that held just before the i-th update. -/
theorem C6_history_audit (t0 : ℚ) (inputs : List MoodInput) (i : ℕ) :
    (runUpdates (NewMoodEngine t0) inputs).History.length = inputs.length ∧
    (i < inputs.length →
      (runUpdates (NewMoodEngine t0) inputs).History.get? i =
        some (runUpdates (NewMoodEngine t0) (inputs.take i)).CurrentState) := by
  constructor
  · rw [runUpdates_history]
    simp [NewMoodEngine, histTrace_length]
  · intro h
    rw [runUpdates_history]
    show (histTrace (NewMoodEngine t0) inputs).get? i = _
    exact histTrace_get inputs (NewMoodEngine t0) i h

def moodInputsW : List MoodInput :=
  [{ context := [], now := 1, decayFactor := 1, patDecayFactor := 1 },
   { context := [(sentimentS, .num (1/2))], now := 2, decayFactor := 1,
     patDecayFactor := 1 }]

theorem C6_history_audit_witness :
    1 < moodInputsW.length ∧
    (runUpdates (NewMoodEngine 0) moodInputsW).History.length = moodInputsW.length ∧
    (runUpdates (NewMoodEngine 0) moodInputsW).History.get? 1 =
      some (runUpdates (NewMoodEngine 0) (moodInputsW.take 1)).CurrentState :=
  ⟨by simp [moodInputsW],
   (C6_history_audit 0 moodInputsW 1).1,
   (C6_history_audit 0 moodInputsW 1).2 (by simp [moodInputsW])⟩

/-! C4: primary-mood selection. -/

/-- Modelled from the spec: spec §4.1 steps (6)-(7) — "zero out moods whose
required romantic/platonic gating fails", then "pick the highest-scoring
mood; if the top score is below a shift threshold, retain the previous mood
if its intensity still exceeds that threshold, else fall back to a neutral
baseline".  Stated for comparison with selectDominantMood (the code). -/
def selectDominantMoodSpec (m : MoodEngineImpl) (scores : ScoreMap)
    (context : EmotionalContext) : String :=
  let gated := scores.map (fun p =>
    (p.1, if p.1 == flirtyS && !context.SapphicContext.AllowsFlirting then 0 else p.2))
  let r := gated.foldl
    (fun acc p => if p.2 > acc.1 then (p.2, p.1) else acc) ((-1 : ℚ), neutralS)
  if r.1 < lookupQ moodThresholds moodShiftS then
    (if m.CurrentState.Intensity > lookupQ moodThresholds moodShiftS
     then m.CurrentState.Primary else neutralS)
  else r.2

def mSassy : MoodEngineImpl :=
  { CurrentState :=
      { Primary := sassyS, Secondary := "", Intensity := 1/2,
        Timestamp := 0, Context := [] }
    History := [] }

def ctxNoFlirt : EmotionalContext :=
  { PrimaryEmotion := neutralS, Sentiment := 0, Intensity := 1/2,
    Keywords := [], UserMood := "", PriorContext := none,
    SapphicContext :=
      { IsRomantic := false, IsFlirty := false, IsPlatonic := false,
        Intensity := 0, AllowsFlirting := false },
    IsEmotional := true, IsTechnical := false, Timestamp := 0,
    RawInput := "", ThemeScores := [], UserContext := [],
    EmotionalTone := neutralS }

def scoresFlirtyOnly : ScoreMap := [(flirtyS, 1)]

/-- C4 (counterexample): with flirting gated off and a raw flirty score of
1, the code picks "flirty" (it only halves the score, 0.5 ≥ 0.4), while the
spec's zero-out selection falls back to the previous mood "sassy". -/
theorem C4_counterexample :
    ctxNoFlirt.SapphicContext.AllowsFlirting = false ∧
    selectDominantMood mSassy scoresFlirtyOnly ctxNoFlirt = flirtyS ∧
    selectDominantMoodSpec mSassy scoresFlirtyOnly ctxNoFlirt = sassyS ∧
    flirtyS ≠ sassyS := by
  refine ⟨rfl, ?_, ?_, by simp [flirtyS, sassyS]⟩
  · simp [selectDominantMood, selFold, selScore, mSassy, ctxNoFlirt,
      scoresFlirtyOnly, flirtyS, neutralS, sassyS, moodThresholds,
      moodShiftS, intensityCapS, lookupQ, lookupOpt, List.find?]
    norm_num
  · simp [selectDominantMoodSpec, mSassy, ctxNoFlirt,
      scoresFlirtyOnly, flirtyS, neutralS, sassyS, moodThresholds,
      moodShiftS, intensityCapS, lookupQ, lookupOpt, List.find?]
    norm_num

theorem selFold_nil (context : EmotionalContext) (acc : ℚ × String) :
    selFold context [] acc = acc := rfl

theorem selFold_cons (context : EmotionalContext) (p : String × ℚ)
    (rest : ScoreMap) (acc : ℚ × String) :
    selFold context (p :: rest) acc =
      selFold context rest
        (if selScore context p.1 p.2 > acc.1
         then (selScore context p.1 p.2, p.1) else acc) := rfl

theorem selFold_spec (context : EmotionalContext) (scores : ScoreMap) :
    ∀ acc : ℚ × String,
      acc.1 ≤ (selFold context scores acc).1 ∧
      (∀ p ∈ scores, selScore context p.1 p.2 ≤ (selFold context scores acc).1) ∧
      (selFold context scores acc = acc ∨
        ∃ p ∈ scores, (selFold context scores acc).2 = p.1 ∧
          (selFold context scores acc).1 = selScore context p.1 p.2) := by
  induction scores with
  | nil =>
    intro acc
    exact ⟨le_refl _, by simp, Or.inl rfl⟩
  | cons p rest ih =>
    intro acc
    rw [selFold_cons]
    obtain ⟨h1, h2, h3⟩ :=
      ih (if selScore context p.1 p.2 > acc.1
          then (selScore context p.1 p.2, p.1) else acc)
    have hle : acc.1 ≤ (if selScore context p.1 p.2 > acc.1
        then (selScore context p.1 p.2, p.1) else acc).1 := by
      split
      · exact le_of_lt (by assumption)
      · exact le_refl _
    have hps : selScore context p.1 p.2 ≤ (if selScore context p.1 p.2 > acc.1
        then (selScore context p.1 p.2, p.1) else acc).1 := by
      split
      · exact le_refl _
      · exact not_lt.mp (by assumption)
    refine ⟨le_trans hle h1, ?_, ?_⟩
    · intro q hq
      rcases List.mem_cons.mp hq with hq' | hq'
      · rw [hq']
        exact le_trans hps h1
      · exact h2 q hq'
    · rcases h3 with heq | ⟨q, hq, hq1, hq2⟩
      · rw [heq]
        split
        · exact Or.inr ⟨p, List.mem_cons_self p rest, rfl, rfl⟩
        · exact Or.inl rfl
      · exact Or.inr ⟨q, List.mem_cons_of_mem p hq, hq1, hq2⟩

theorem selFold_lt (context : EmotionalContext) (scores : ScoreMap) (c : ℚ)
    (hall : ∀ p ∈ scores, selScore context p.1 p.2 < c) :
    ∀ acc : ℚ × String, acc.1 < c → (selFold context scores acc).1 < c := by
  induction scores with
  | nil =>
    intro acc hacc
    exact hacc
  | cons p rest ih =>
    intro acc hacc
    rw [selFold_cons]
    refine ih (fun q hq => hall q (List.mem_cons_of_mem p hq)) _ ?_
    split
    · exact hall p (List.mem_cons_self p rest)
    · exact hacc

/-- The context with flirting allowed and every other field unchanged. -/
def ctxAllow (context : EmotionalContext) : EmotionalContext :=
  { context with SapphicContext :=
      { context.SapphicContext with AllowsFlirting := true } }

/-- The raw scores with the flirty entry halved. -/
def halveFlirty (scores : ScoreMap) : ScoreMap :=
  scores.map (fun p => (p.1, if p.1 == flirtyS then p.2 * (1/2) else p.2))

theorem halveFlirty_cons (p : String × ℚ) (rest : ScoreMap) :
    halveFlirty (p :: rest) =
      (p.1, if p.1 == flirtyS then p.2 * (1/2) else p.2) :: halveFlirty rest := rfl

theorem selScore_halve (context : EmotionalContext)
    (h : context.SapphicContext.AllowsFlirting = false) (mood : String) (score : ℚ) :
    selScore context mood score =
      selScore (ctxAllow context) mood
        (if mood == flirtyS then score * (1/2) else score) := by
  unfold selScore ctxAllow
  by_cases hm : mood == flirtyS
  · by_cases hu : mood == context.UserMood
    · simp [hm, hu, h]
      ring
    · simp [hm, hu, h]
  · by_cases hu : mood == context.UserMood
    · simp [hm, hu, h]
    · simp [hm, hu, h]

theorem selFold_halve (context : EmotionalContext)
    (h : context.SapphicContext.AllowsFlirting = false) (scores : ScoreMap) :
    ∀ acc : ℚ × String,
      selFold context scores acc = selFold (ctxAllow context) (halveFlirty scores) acc := by
  induction scores with
  | nil =>
    intro acc
    rfl
  | cons p rest ih =>
    intro acc
    rw [selFold_cons, halveFlirty_cons, selFold_cons]
    show _ = selFold (ctxAllow context) (halveFlirty rest) _
    rw [← selScore_halve context h p.1 p.2]
    exact ih _

/-- C4 (amended): in selectDominantMood, when flirting is gated off the
flirty score is multiplied by 0.5 rather than zeroed — selection behaves
exactly as if it ran with the flirty raw score halved and the gate open;
if every adjusted score is below the mood-shift threshold (0.4) the
previous primary mood is returned when the current intensity exceeds that
threshold and "neutral" otherwise; and when some adjusted score reaches
the threshold, a mood with the maximal adjusted score is picked. -/
theorem C4_selection_amended :
    (∀ (m : MoodEngineImpl) (scores : ScoreMap) (context : EmotionalContext),
      context.SapphicContext.AllowsFlirting = false →
      selectDominantMood m scores context =
        selectDominantMood m (halveFlirty scores) (ctxAllow context)) ∧
    (∀ (m : MoodEngineImpl) (scores : ScoreMap) (context : EmotionalContext),
      (∀ p ∈ scores, selScore context p.1 p.2 < lookupQ moodThresholds moodShiftS) →
      selectDominantMood m scores context =
        (if m.CurrentState.Intensity > lookupQ moodThresholds moodShiftS
         then m.CurrentState.Primary else neutralS)) ∧
    (∀ (m : MoodEngineImpl) (scores : ScoreMap) (context : EmotionalContext),
      (∃ p ∈ scores, lookupQ moodThresholds moodShiftS ≤ selScore context p.1 p.2) →
      ∃ p ∈ scores, selectDominantMood m scores context = p.1 ∧
        ∀ q ∈ scores, selScore context q.1 q.2 ≤ selScore context p.1 p.2) := by
  refine ⟨?_, ?_, ?_⟩
  · intro m scores context h
    unfold selectDominantMood
    rw [selFold_halve context h scores]
  · intro m scores context h
    unfold selectDominantMood
    rw [if_pos]
    refine selFold_lt context scores _ h _ ?_
    rw [show lookupQ moodThresholds moodShiftS = 2/5 from rfl]
    norm_num
  · intro m scores context h
    obtain ⟨p0, hp0, hs0⟩ := h
    obtain ⟨h1, h2, h3⟩ := selFold_spec context scores (-1, neutralS)
    have hr : lookupQ moodThresholds moodShiftS ≤
        (selFold context scores (-1, neutralS)).1 :=
      le_trans hs0 (h2 p0 hp0)
    rcases h3 with heq | ⟨q, hq, hq1, hq2⟩
    · exfalso
      rw [heq] at hr
      rw [show lookupQ moodThresholds moodShiftS = 2/5 from rfl] at hr
      norm_num at hr
    · refine ⟨q, hq, ?_, ?_⟩
      · unfold selectDominantMood
        rw [if_neg (not_lt.mpr hr)]
        exact hq1
      · intro r hrr
        rw [← hq2]
        exact h2 r hrr

def scoresLowNeutral : ScoreMap := [(neutralS, 0)]

def scoresSassyOne : ScoreMap := [(sassyS, 1)]

/-- C4 witness: the three parts of the amended selection theorem at
concrete inputs. -/
theorem C4_selection_amended_witness :
    (selectDominantMood mSassy scoresFlirtyOnly ctxNoFlirt =
      selectDominantMood mSassy (halveFlirty scoresFlirtyOnly) (ctxAllow ctxNoFlirt)) ∧
    (selectDominantMood mSassy scoresLowNeutral ctxNoFlirt =
      (if mSassy.CurrentState.Intensity > lookupQ moodThresholds moodShiftS
       then mSassy.CurrentState.Primary else neutralS)) ∧
    (∃ p ∈ scoresSassyOne, selectDominantMood mSassy scoresSassyOne ctxNoFlirt = p.1 ∧
      ∀ q ∈ scoresSassyOne,
        selScore ctxNoFlirt q.1 q.2 ≤ selScore ctxNoFlirt p.1 p.2) :=
  ⟨C4_selection_amended.1 mSassy scoresFlirtyOnly ctxNoFlirt rfl,
   C4_selection_amended.2.1 mSassy scoresLowNeutral ctxNoFlirt (by
     intro p hp
     simp only [scoresLowNeutral, List.mem_singleton] at hp
     rw [hp, show lookupQ moodThresholds moodShiftS = 2/5 from rfl]
     simp [selScore, ctxNoFlirt, neutralS, flirtyS]),
   C4_selection_amended.2.2 mSassy scoresSassyOne ctxNoFlirt ⟨(sassyS, 1), by
     simp [scoresSassyOne], by
     rw [show lookupQ moodThresholds moodShiftS = 2/5 from rfl]
     simp [selScore, ctxNoFlirt, sassyS, flirtyS]
     norm_num⟩⟩

/-! Persona system (persona-system snapshot: PersonaSystem, canTransition,
SwitchPersona, matchesCondition, validateConstraints, GetResponseStyle,
ApplyTransition).  Times are in minutes; `now` stands for time.Now(). -/

/-- Insert-or-replace of the first binding (Go map write m[k] = v). -/
def setA {α : Type} (m : List (String × α)) (k : String) (v : α) :
    List (String × α) :=
  match m with
  | [] => [(k, v)]
  | p :: t => if p.1 == k then (k, v) :: t else p :: setA t k v

structure PersonaStyleRule where
  Condition : String
  Response : String
  Tone : String
  Priority : Int
  Constraints : List String
  deriving DecidableEq

/-- Constraint; the source field named Type is rendered Ty. -/
structure Constraint where
  Ty : String
  Value : GoVal
  Priority : Int
  Description : String
  deriving DecidableEq

/-- Persona; the source field named Type (a PersonaType string) is Ty. -/
structure Persona where
  ID : String
  Name : String
  Ty : String
  Traits : ScoreMap
  MoodBias : ScoreMap
  StyleRules : List PersonaStyleRule
  Preferences : GoCtx
  Constraints : List Constraint
  Active : Bool
  LastUsed : ℚ
  deriving DecidableEq

structure PersonaContext where
  CurrentMood : String
  UserContext : GoCtx
  TopicContext : ScoreMap
  TimeContext : List (String × ℚ)
  Restrictions : List String
  deriving DecidableEq

/-- PersonaEvent; the Go Context pointer is stored as a value snapshot. -/
structure PersonaEvent where
  Timestamp : ℚ
  Ty : String
  FromPersona : String
  ToPersona : String
  Reason : String
  Context : PersonaContext
  deriving DecidableEq

structure TransitionManager where
  transitions : List (String × ScoreMap)
  cooldowns : List (String × ℚ)
  deriving DecidableEq

structure TraitManager where
  traits : ScoreMap
  patterns : List (String × List String)
  cooldowns : List (String × ℚ)
  deriving DecidableEq

structure PersonaSystem where
  personas : List (String × Persona)
  activePersona : Option Persona
  transitions : TransitionManager
  context : PersonaContext
  traits : TraitManager
  history : List PersonaEvent
  deriving DecidableEq

def sapphicOnlyS : String := "sapphic_only"

def strictModS : String := "strict_mod"

def testReasonS : String := "test"

/-- The sapphic_teaser persona installed by initializeDefaultPersonas. -/
def sapphicTeaserPersona : Persona :=
  { ID := "sapphic_teaser"
    Name := "Sapphic Teaser"
    Ty := "sapphic_teaser"
    Traits := [(flirtyS, 9/10), (playfulS, 4/5), ("confident", 7/10),
               ("gentle", 3/5), ("romantic", 4/5)]
    MoodBias := [(flirtyS, 3/10), (playfulS, 1/5), ("romantic", 1/5)]
    StyleRules :=
      [{ Condition := "feminine_presence", Response := flirtyS,
         Tone := playfulS, Priority := 1, Constraints := [] },
       { Condition := "romantic_context", Response := "romantic",
         Tone := "gentle", Priority := 2, Constraints := [] }]
    Preferences := []
    Constraints :=
      [{ Ty := "context", Value := .str sapphicOnlyS, Priority := 1,
         Description := "Maintain sapphic context" }]
    Active := false
    LastUsed := 0 }

/-- The geeky_assistant persona installed by initializeDefaultPersonas. -/
def geekyAssistantPersona : Persona :=
  { ID := "geeky_assistant"
    Name := "Geeky Assistant"
    Ty := "geeky_assistant"
    Traits := [("analytical", 9/10), ("helpful", 4/5), ("enthusiastic", 7/10),
               ("nerdy", 4/5), ("precise", 9/10)]
    MoodBias := [("focused", 3/10), ("excited", 1/5), ("analytical", 1/5)]
    StyleRules :=
      [{ Condition := "technical_discussion", Response := "detailed",
         Tone := "enthusiastic", Priority := 1, Constraints := [] }]
    Preferences := []
    Constraints := []
    Active := false
    LastUsed := 0 }

/-- NewPersonaSystem with the default persona catalog. -/
def NewPersonaSystem : PersonaSystem :=
  { personas := [("sapphic_teaser", sapphicTeaserPersona),
                 ("geeky_assistant", geekyAssistantPersona)]
    activePersona := none
    transitions := { transitions := [], cooldowns := [] }
    context := { CurrentMood := "", UserContext := [], TopicContext := [],
                 TimeContext := [], Restrictions := [] }
    traits := { traits := [], patterns := [], cooldowns := [] }
    history := [] }

/-- canTransition: the target must exist and must not be within the fixed
5-minute cooldown window (time.Since(lastTransition) < 5*time.Minute). -/
def canTransition (ps : PersonaSystem) (targetPersonaID : String) (now : ℚ) : Bool :=
  if (lookupOpt ps.personas targetPersonaID).isNone then false
  else
    match lookupOpt ps.transitions.cooldowns targetPersonaID with
    | some lastTransition => if now - lastTransition < 5 then false else true
    | none => true

/-- ApplyTransition: records the target cooldown and bumps the transition
probability from the old persona by 0.1. -/
def ApplyTransition (tm : TransitionManager) (fromID toID : String) (now : ℚ) :
    TransitionManager :=
  let cooldowns1 := setA tm.cooldowns toID now
  let trans1 :=
    if (lookupOpt tm.transitions fromID).isNone
    then setA tm.transitions fromID [] else tm.transitions
  let inner := (lookupOpt trans1 fromID).getD []
  { transitions := setA trans1 fromID (setA inner toID (lookupQ inner toID + 1/10))
    cooldowns := cooldowns1 }

/-- Fallback persona value for the (unreachable under the canTransition
guard) case of a missing map entry. -/
def emptyPersona : Persona :=
  { ID := "", Name := "", Ty := "", Traits := [], MoodBias := [],
    StyleRules := [], Preferences := [], Constraints := [],
    Active := false, LastUsed := 0 }

/-- SwitchPersona.  Returns the Go error (if any) together with the
post-call system state; on the guard failure the state is returned
untouched, mirroring the early return. -/
def SwitchPersona (ps : PersonaSystem) (targetPersonaID reason : String)
    (now : ℚ) : Except String Unit × PersonaSystem :=
  if !canTransition ps targetPersonaID now then
    (.error ("cannot transition to persona: " ++ targetPersonaID), ps)
  else
    let oldPersonaID :=
      match ps.activePersona with
      | some p => p.ID
      | none => ""
    let personas1 :=
      match ps.activePersona with
      | some p => ps.personas.map
          (fun q => if q.1 == p.ID then (q.1, { q.2 with Active := false }) else q)
      | none => ps.personas
    let newPersona0 := (lookupOpt personas1 targetPersonaID).getD emptyPersona
    let newPersona := { newPersona0 with Active := true, LastUsed := now }
    let personas2 := setA personas1 targetPersonaID newPersona
    let event : PersonaEvent :=
      { Timestamp := now, Ty := "transition", FromPersona := oldPersonaID,
        ToPersona := targetPersonaID, Reason := reason, Context := ps.context }
    (.ok (),
     { ps with
        personas := personas2
        activePersona := some newPersona
        history := ps.history ++ [event]
        transitions := ApplyTransition ps.transitions oldPersonaID targetPersonaID now })

theorem canTransition_false (ps : PersonaSystem) (target : String) (now : ℚ)
    (h : lookupOpt ps.personas target = none ∨
      ∃ t, lookupOpt ps.transitions.cooldowns target = some t ∧ now - t < 5) :
    canTransition ps target now = false := by
  unfold canTransition
  rcases h with h | ⟨t, ht, hlt⟩
  · rw [if_pos]
    rw [h]
    rfl
  · by_cases habs : (lookupOpt ps.personas target).isNone
    · rw [if_pos habs]
    · rw [if_neg habs, ht]
      show (if now - t < 5 then false else true) = false
      rw [if_pos hlt]

/-- C2: switching to a persona that does not exist, or whose recorded
cooldown timestamp is less than 5 minutes old, returns the "cannot
transition" error and leaves the entire system state unchanged. -/
theorem C2_switch_guard (ps : PersonaSystem) (target reason : String) (now : ℚ)
    (h : lookupOpt ps.personas target = none ∨
      ∃ t, lookupOpt ps.transitions.cooldowns target = some t ∧ now - t < 5) :
    (SwitchPersona ps target reason now).1 =
      .error ("cannot transition to persona: " ++ target) ∧
    (SwitchPersona ps target reason now).2 = ps := by
  have hcan := canTransition_false ps target now h
  unfold SwitchPersona
  rw [hcan]
  exact ⟨rfl, rfl⟩

/-- C2 witness: switching the freshly constructed system to the
nonexistent persona id "strict_mod" errors and changes nothing. -/
theorem C2_switch_guard_witness :
    lookupOpt NewPersonaSystem.personas strictModS = none ∧
    (SwitchPersona NewPersonaSystem strictModS testReasonS 0).1 =
      .error ("cannot transition to persona: " ++ strictModS) ∧
    (SwitchPersona NewPersonaSystem strictModS testReasonS 0).2 = NewPersonaSystem :=
  ⟨rfl,
   (C2_switch_guard NewPersonaSystem strictModS testReasonS 0 (Or.inl rfl)).1,
   (C2_switch_guard NewPersonaSystem strictModS testReasonS 0 (Or.inl rfl)).2⟩

/-- matchesCondition: reads the system's stored context (ps.context), not
its context argument. -/
def matchesCondition (ps : PersonaSystem) (condition : String)
    (_context : PersonaContext) : Bool :=
  if condition == "feminine_presence" then
    ps.context.CurrentMood == flirtyS || ps.context.CurrentMood == "romantic"
  else if condition == "romantic_context" then
    ps.context.CurrentMood == "romantic"
  else if condition == "technical_discussion" then
    ps.context.CurrentMood == "focused" || ps.context.CurrentMood == "analytical"
  else false

/-- validateConstraints: fails exactly when some rule constraint appears in
the stored restriction list. -/
def validateConstraints (ps : PersonaSystem) (constraints : List String) : Bool :=
  constraints.all (fun c => ps.context.Restrictions.all (fun r => c != r))

/-- The zero-value PersonaStyleRule returned when nothing applies. -/
def emptyStyleRule : PersonaStyleRule :=
  { Condition := "", Response := "", Tone := "", Priority := 0, Constraints := [] }

/-- GetResponseStyle: scans the active persona's style rules carrying
(bestRule, bestPriority), keeping condition-matching, strictly
higher-priority, constraint-valid rules. -/
def GetResponseStyle (ps : PersonaSystem) (context : PersonaContext) :
    PersonaStyleRule :=
  match ps.activePersona with
  | none => emptyStyleRule
  | some active =>
    (active.StyleRules.foldl
      (fun acc rule =>
        if matchesCondition ps rule.Condition context &&
            decide (rule.Priority > acc.2) &&
            validateConstraints ps rule.Constraints
        then (rule, rule.Priority) else acc)
      (emptyStyleRule, -1)).1

/-- C10: GetResponseStyle does not depend on its context argument — only on
the system's internally stored context and active persona (matchesCondition
consults ps.context, never the parameter). -/
theorem C10_style_ignores_argument (ps : PersonaSystem)
    (c1 c2 : PersonaContext) :
    GetResponseStyle ps c1 = GetResponseStyle ps c2 := rfl

/-! Topic threading and the topic graphs (topic_threading.go,
pattern_analysis.go). -/

/-- TopicNode (topic_threading.go).  The uuid assigned to ID is abstracted
as the topic name; nothing in scope reads it. -/
structure TopicNode where
  ID : String
  Name : String
  Keywords : List String
  Context : String
  StartTime : ℚ
  LastActive : ℚ
  Confidence : ℚ
  ParentID : String
  Children : List String
  Related : ScoreMap
  Attributes : List (String × String)

/-- The fields of the emotional context that updateThread reads
(context.PrimaryMood, context.Intensity). -/
structure ThreadContext where
  PrimaryMood : String
  Intensity : ℚ

/-- TopicThread (topic_threading.go); the borrowed context pointer is the
projection above. -/
structure TopicThread where
  ID : String
  ActiveNodes : List String
  MainTopic : String
  StartTime : ℚ
  LastActive : ℚ
  Depth : Int
  Context : Option ThreadContext

/-- TopicManager.TopicGraph (map from topic name to its node). -/
abbrev Graph := List (String × TopicNode)

/-- MaxThreadDepth as installed by NewTopicManager. -/
def maxThreadDepth : ℕ := 5

/-- DomainRule (topic_threading.go); validators are dropped (no rule in
initializeDomainRules installs any). -/
structure DomainRule where
  Domain : String
  Keywords : List String
  Priority : Int
  Transitions : ScoreMap

/-- initializeDomainRules (topic_threading.go, lines 306-340). -/
def domainRules : List (String × DomainRule) :=
  [("tech",
    { Domain := "tech",
      Keywords := ["coding", "programming", "software", "computer", "algorithm"],
      Priority := 3,
      Transitions := [("science", 4/5), ("gaming", 7/10), ("sapphic", 1/2)] }),
   ("sapphic",
    { Domain := "sapphic",
      Keywords := ["girls", "lesbian", "queer", "dating", "cute"],
      Priority := 4,
      Transitions := [("gaming", 3/5), ("tech", 1/2), ("memes", 7/10)] }),
   ("gaming",
    { Domain := "gaming",
      Keywords := ["game", "play", "steam", "console", "rpg"],
      Priority := 2,
      Transitions := [("tech", 3/5), ("sapphic", 3/5), ("memes", 4/5)] })]

/-- Modelled from the spec: tm.getDomain is called by
calculateRelationshipScore but is defined nowhere in the sources.  Per spec
§4.2 threads store detected domain names (updateThread receives
topic.Domain), so a stored topic's domain is the topic itself when it is a
declared domain and unknown ("") otherwise. -/
def getDomain (topic : String) : String :=
  if (lookupOpt domainRules topic).isSome then topic else ""

/-- calculateRelationshipScore (topic_threading.go, lines 264-281). -/
def calculateRelationshipScore (topic1 topic2 : String) : ℚ :=
  let domain1 := getDomain topic1
  let domain2 := getDomain topic2
  if domain1 == "" || domain2 == "" then 0
  else
    match lookupOpt domainRules domain1 with
    | some rule =>
      match lookupOpt rule.Transitions domain2 with
      | some score => score
      | none => 0
    | none => 0

/-- A fresh node as created by updateThread for an unseen topic. -/
def newTopicNode (topic : String) (now : ℚ) : TopicNode :=
  { ID := topic, Name := topic, Keywords := [], Context := "",
    StartTime := now, LastActive := now, Confidence := 0, ParentID := "",
    Children := [], Related := [], Attributes := [] }

/-- Update of one directed relation weight, through an existing node (the
Go write currentNode.Related[b] = v); a missing node is left untouched
(unreachable: every write goes through a node known to exist). -/
def setRel (g : Graph) (a b : String) (v : ℚ) : Graph :=
  match g with
  | [] => []
  | p :: t =>
    if p.1 == a then (p.1, { p.2 with Related := setA p.2.Related b v }) :: t
    else p :: setRel t a b v

def moodAttrS : String := "mood"

def intensityAttrS : String := "intensity"

/-- Go fmt.Sprintf of the intensity, abstracted as a plain rendering;
nothing in scope reads it. -/
def formatIntensity (q : ℚ) : String := toString q

/-- The attribute writes of updateThread (mood / intensity). -/
def setNodeAttrs (g : Graph) (topic : String) (c : ThreadContext) : Graph :=
  match g with
  | [] => []
  | p :: t =>
    if p.1 == topic then
      let attrs1 := setA p.2.Attributes moodAttrS c.PrimaryMood
      let attrs2 := setA attrs1 intensityAttrS (formatIntensity c.Intensity)
      (p.1, { p.2 with Attributes := attrs2 }) :: t
    else p :: setNodeAttrs t topic c

/-- The contains helper (topic_threading.go, lines 296-303). -/
def containsStr (slice : List String) (item : String) : Bool :=
  slice.any (fun s => s == item)

/-- The relationship-update loop of updateThread (lines 182-190): for each
topic already on the thread, write the bidirectional relation weights
through the current and the existing node. -/
def relLoop (topic : String) (nodes : List String) (g : Graph) : Graph :=
  nodes.foldl
    (fun g existingTopic =>
      if (lookupOpt g existingTopic).isSome then
        let v := calculateRelationshipScore topic existingTopic
        setRel (setRel g topic existingTopic v) existingTopic topic v
      else g) g

/-- updateThread (topic_threading.go, lines 163-207), returning the updated
thread and topic graph. -/
def updateThread (thread : TopicThread) (graph : Graph) (topic : String)
    (context : Option ThreadContext) (now : ℚ) : TopicThread × Graph :=
  let thread1 := { thread with LastActive := now }
  let graph1 :=
    if (lookupOpt graph topic).isNone
    then setA graph topic (newTopicNode topic now) else graph
  let graph2 := relLoop topic thread1.ActiveNodes graph1
  let graph3 :=
    match context with
    | some c => setNodeAttrs graph2 topic c
    | none => graph2
  let thread2 :=
    match context with
    | some c => { thread1 with Context := some c }
    | none => thread1
  let thread3 :=
    if containsStr thread2.ActiveNodes topic then thread2
    else
      let ns := thread2.ActiveNodes ++ [topic]
      { thread2 with
          ActiveNodes := if ns.length > maxThreadDepth then ns.drop 1 else ns }
  (thread3, graph3)

/-- createNewThread (topic_threading.go, lines 210-223); uuid abstracted. -/
def createNewThread (topic : String) (context : Option ThreadContext)
    (now : ℚ) : TopicThread :=
  { ID := "", ActiveNodes := [topic], MainTopic := topic, StartTime := now,
    LastActive := now, Depth := 1, Context := context }

/-- TopicPersistenceEnhanced.relationshipGraph (pattern_analysis.go). -/
abbrev RelGraph := List (String × ScoreMap)

/-- One half of UpdateRelationshipGraph: create the row if missing, then
write one directed weight (Go: ensure relationshipGraph[a] exists, then
relationshipGraph[a][b] = v). -/
def relWrite (g : RelGraph) (a b : String) (v : ℚ) : RelGraph :=
  let g1 := if (lookupOpt g a).isNone then setA g a [] else g
  setA g1 a (setA ((lookupOpt g1 a).getD []) b v)

/-- UpdateRelationshipGraph (pattern_analysis.go, lines 369-381): both
directions written with the same strength. -/
def UpdateRelationshipGraph (g : RelGraph) (fromT toT : String) (strength : ℚ) :
    RelGraph :=
  relWrite (relWrite g fromT toT strength) toT fromT strength

/-- Directed weight recorded in the thread topic graph. -/
def edgeW (g : Graph) (a b : String) : Option ℚ :=
  match lookupOpt g a with
  | some node => lookupOpt node.Related b
  | none => none

/-- Directed weight recorded in the enhanced-persistence relation graph. -/
def edgeR (g : RelGraph) (a b : String) : Option ℚ :=
  match lookupOpt g a with
  | some m => lookupOpt m b
  | none => none

def SymmG (g : Graph) : Prop := ∀ a b, edgeW g a b = edgeW g b a

def SymmR (g : RelGraph) : Prop := ∀ a b, edgeR g a b = edgeR g b a

/-! Lookup lemmas for the association-list map operations. -/

theorem lookupOpt_cons {α : Type} (p : String × α) (t : List (String × α))
    (k : String) :
    lookupOpt (p :: t) k = if p.1 == k then some p.2 else lookupOpt t k := by
  unfold lookupOpt
  by_cases h : (p.1 == k) = true
  · simp [List.find?, h]
  · simp [List.find?, h]

theorem lookupOpt_setA {α : Type} (m : List (String × α)) (k k' : String)
    (v : α) :
    lookupOpt (setA m k v) k' = if k' = k then some v else lookupOpt m k' := by
  induction m with
  | nil =>
    by_cases h : k' = k
    · subst h
      simp [setA, lookupOpt_cons]
    · simp [setA, lookupOpt_cons, h, Ne.symm h, lookupOpt]
  | cons p t ih =>
    by_cases hp : p.1 = k
    · by_cases h : k' = k
      · subst h
        simp [setA, hp, lookupOpt_cons]
      · simp [setA, hp, lookupOpt_cons, h, Ne.symm h]
    · by_cases h : k' = k
      · subst h
        simp [setA, hp, lookupOpt_cons, ih]
      · simp [setA, hp, lookupOpt_cons, ih, h]

theorem lookupOpt_setRel (g : Graph) (a b : String) (v : ℚ) (x : String) :
    lookupOpt (setRel g a b v) x =
      if x = a
      then (lookupOpt g a).map (fun n => { n with Related := setA n.Related b v })
      else lookupOpt g x := by
  induction g with
  | nil =>
    by_cases hx : x = a
    · simp [setRel, lookupOpt, hx]
    · simp [setRel, hx]
  | cons p t ih =>
    by_cases hpa : p.1 = a
    · by_cases hx : x = a
      · subst hx
        simp [setRel, hpa, lookupOpt_cons]
      · simp [setRel, hpa, lookupOpt_cons, hx, Ne.symm hx]
    · by_cases hx : x = a
      · subst hx
        simp [setRel, hpa, lookupOpt_cons, ih, Ne.symm hpa]
      · by_cases hpx : p.1 = x
        · simp [setRel, hpa, lookupOpt_cons, hpx, hx]
        · simp [setRel, hpa, lookupOpt_cons, hpx, hx, ih]

theorem isSome_setRel (g : Graph) (a b : String) (v : ℚ) (x : String) :
    (lookupOpt (setRel g a b v) x).isSome = (lookupOpt g x).isSome := by
  rw [lookupOpt_setRel]
  by_cases hx : x = a
  · subst hx
    cases lookupOpt g x <;> simp
  · rw [if_neg hx]

theorem edgeW_setRel (g : Graph) (a b : String) (v : ℚ) (x y : String) :
    edgeW (setRel g a b v) x y =
      if x = a ∧ y = b ∧ (lookupOpt g a).isSome = true then some v
      else edgeW g x y := by
  unfold edgeW
  rw [lookupOpt_setRel]
  by_cases hx : x = a
  · subst hx
    rw [if_pos rfl]
    cases hg : lookupOpt g x with
    | none => simp [hg]
    | some n =>
      show lookupOpt (setA n.Related b v) y =
        if x = x ∧ y = b ∧ (some n).isSome = true then some v
        else lookupOpt n.Related y
      rw [lookupOpt_setA]
      by_cases hy : y = b
      · rw [if_pos hy, if_pos ⟨rfl, hy, rfl⟩]
      · rw [if_neg hy, if_neg (by tauto)]
  · rw [if_neg hx, if_neg (by tauto)]

/-- Both directions of a pair written with the same value through existing
nodes preserve symmetry. -/
theorem symm_setEdge (g : Graph) (t e : String) (v : ℚ)
    (hs : SymmG g) (ht : (lookupOpt g t).isSome = true)
    (he : (lookupOpt g e).isSome = true) :
    SymmG (setRel (setRel g t e v) e t v) := by
  intro x y
  rw [edgeW_setRel, edgeW_setRel, edgeW_setRel, edgeW_setRel]
  simp only [isSome_setRel]
  split_ifs <;> first | rfl | exact hs x y | tauto

theorem relLoop_nil (topic : String) (g : Graph) : relLoop topic [] g = g := rfl

theorem relLoop_cons (topic e : String) (rest : List String) (g : Graph) :
    relLoop topic (e :: rest) g =
      relLoop topic rest
        (if (lookupOpt g e).isSome then
          setRel (setRel g topic e (calculateRelationshipScore topic e))
            e topic (calculateRelationshipScore topic e)
         else g) := rfl

theorem symm_relLoop (topic : String) (nodes : List String) :
    ∀ g : Graph, SymmG g → (lookupOpt g topic).isSome = true →
      SymmG (relLoop topic nodes g) := by
  induction nodes with
  | nil =>
    intro g hs _
    exact hs
  | cons e rest ih =>
    intro g hs htop
    rw [relLoop_cons]
    by_cases hg : (lookupOpt g e).isSome = true
    · rw [if_pos hg]
      refine ih _ (symm_setEdge g topic e _ hs htop hg) ?_
      simp [isSome_setRel, htop]
    · rw [if_neg hg]
      exact ih g hs htop

theorem edgeW_setA_new (g : Graph) (topic : String) (now : ℚ) (x y : String)
    (habs : lookupOpt g topic = none) :
    edgeW (setA g topic (newTopicNode topic now)) x y = edgeW g x y := by
  unfold edgeW
  rw [lookupOpt_setA]
  by_cases hx : x = topic
  · subst hx
    rw [if_pos rfl, habs]
    simp [newTopicNode, lookupOpt]
  · rw [if_neg hx]

theorem edgeW_setNodeAttrs (g : Graph) (topic : String) (c : ThreadContext)
    (x y : String) :
    edgeW (setNodeAttrs g topic c) x y = edgeW g x y := by
  induction g with
  | nil => rfl
  | cons p t ih =>
    show edgeW (if p.1 == topic then _ :: t else p :: setNodeAttrs t topic c)
        x y = _
    by_cases hp : (p.1 == topic) = true
    · rw [if_pos hp]
      unfold edgeW
      rw [lookupOpt_cons, lookupOpt_cons]
      by_cases hx : (p.1 == x) = true
      · rw [if_pos hx, if_pos hx]
      · rw [if_neg hx, if_neg hx]
    · rw [if_neg hp]
      unfold edgeW
      rw [lookupOpt_cons, lookupOpt_cons]
      by_cases hx : (p.1 == x) = true
      · rw [if_pos hx, if_pos hx]
      · rw [if_neg hx, if_neg hx]
        exact ih

/-- The topic-graph component of updateThread preserves symmetry. -/
theorem symm_updateThread (thread : TopicThread) (g : Graph) (topic : String)
    (context : Option ThreadContext) (now : ℚ) (hs : SymmG g) :
    SymmG (updateThread thread g topic context now).2 := by
  have hs1 : SymmG (if (lookupOpt g topic).isNone
      then setA g topic (newTopicNode topic now) else g) := by
    by_cases habs : (lookupOpt g topic).isNone = true
    · rw [if_pos habs]
      have hnone : lookupOpt g topic = none := by
        cases h : lookupOpt g topic
        · rfl
        · rw [h] at habs
          simp at habs
      intro x y
      rw [edgeW_setA_new g topic now x y hnone, edgeW_setA_new g topic now y x hnone]
      exact hs x y
    · rw [if_neg habs]
      exact hs
  have htop : (lookupOpt (if (lookupOpt g topic).isNone
      then setA g topic (newTopicNode topic now) else g) topic).isSome = true := by
    by_cases habs : (lookupOpt g topic).isNone = true
    · rw [if_pos habs, lookupOpt_setA, if_pos rfl]
      rfl
    · rw [if_neg habs]
      cases h : lookupOpt g topic
      · rw [h] at habs
        simp at habs
      · rfl
  have hloop := symm_relLoop topic thread.ActiveNodes _ hs1 htop
  simp only [updateThread]
  cases context with
  | none => exact hloop
  | some c =>
    intro x y
    rw [edgeW_setNodeAttrs, edgeW_setNodeAttrs]
    exact hloop x y

theorem lookupOpt_relWrite (g : RelGraph) (a b : String) (v : ℚ) (x : String) :
    lookupOpt (relWrite g a b v) x =
      if x = a then some (setA ((lookupOpt g a).getD []) b v)
      else lookupOpt g x := by
  unfold relWrite
  rw [lookupOpt_setA]
  by_cases hx : x = a
  · rw [if_pos hx, if_pos hx]
    have hrow : (lookupOpt (if (lookupOpt g a).isNone = true
        then setA g a [] else g) a).getD [] = (lookupOpt g a).getD [] := by
      by_cases habs : (lookupOpt g a).isNone = true
      · rw [if_pos habs, lookupOpt_setA, if_pos rfl,
          Option.isNone_iff_eq_none.mp habs]
        rfl
      · rw [if_neg habs]
    rw [hrow]
  · rw [if_neg hx, if_neg hx]
    by_cases habs : (lookupOpt g a).isNone = true
    · rw [if_pos habs, lookupOpt_setA, if_neg hx]
    · rw [if_neg habs]

theorem edgeR_relWrite (g : RelGraph) (a b : String) (v : ℚ) (x y : String) :
    edgeR (relWrite g a b v) x y =
      if x = a ∧ y = b then some v else edgeR g x y := by
  unfold edgeR
  rw [lookupOpt_relWrite]
  by_cases hx : x = a
  · subst hx
    rw [if_pos rfl]
    show lookupOpt (setA ((lookupOpt g x).getD []) b v) y =
      if x = x ∧ y = b then some v
      else match lookupOpt g x with
        | some m => lookupOpt m y
        | none => none
    rw [lookupOpt_setA]
    by_cases hy : y = b
    · rw [if_pos hy, if_pos ⟨rfl, hy⟩]
    · rw [if_neg hy, if_neg (by tauto)]
      cases hg : lookupOpt g x with
      | none => rfl
      | some m => rfl
  · rw [if_neg hx, if_neg (by tauto)]

/-- UpdateRelationshipGraph preserves symmetry. -/
theorem symm_URG (g : RelGraph) (f t : String) (v : ℚ) (hs : SymmR g) :
    SymmR (UpdateRelationshipGraph g f t v) := by
  intro x y
  unfold UpdateRelationshipGraph
  rw [edgeR_relWrite, edgeR_relWrite, edgeR_relWrite, edgeR_relWrite]
  split_ifs <;> first | rfl | exact hs x y | tauto

/-- One update of the process-wide topic relation state: either a thread
update (updateThread with the given active-node list) or a direct
UpdateRelationshipGraph call. -/
inductive GraphOp where
  | thread (activeNodes : List String) (topic : String)
      (context : Option ThreadContext) (now : ℚ)
  | direct (fromT toT : String) (strength : ℚ)

def applyGraphOp (s : Graph × RelGraph) : GraphOp → Graph × RelGraph
  | .thread nodes topic context now =>
      ((updateThread
          { ID := "", ActiveNodes := nodes, MainTopic := "", StartTime := 0,
            LastActive := 0, Depth := 0, Context := none }
          s.1 topic context now).2, s.2)
  | .direct f t v => (s.1, UpdateRelationshipGraph s.2 f t v)

def applyGraphOps (s : Graph × RelGraph) (ops : List GraphOp) :
    Graph × RelGraph :=
  ops.foldl applyGraphOp s

/-- C5: after any sequence of thread updates and direct relationship-graph
updates, both stored relation-weight maps remain symmetric. -/
theorem C5_relation_weights_symmetric (ops : List GraphOp) (tg : Graph)
    (rg : RelGraph) (h1 : SymmG tg) (h2 : SymmR rg) :
    SymmG (applyGraphOps (tg, rg) ops).1 ∧ SymmR (applyGraphOps (tg, rg) ops).2 := by
  induction ops generalizing tg rg with
  | nil => exact ⟨h1, h2⟩
  | cons op rest ih =>
    cases op with
    | thread nodes topic context now =>
      exact ih _ rg (symm_updateThread _ tg topic context now h1) h2
    | direct f t v =>
      exact ih tg _ h1 (symm_URG rg f t v h2)

def techS : String := "tech"

def sapphicDomS : String := "sapphic"

def alphaS : String := "alpha"

def betaS : String := "beta"

def graphOpsW : List GraphOp :=
  [.thread [techS] sapphicDomS none 0, .direct alphaS betaS (1/2),
   .thread [sapphicDomS, "gaming"] techS none 1]

theorem C5_relation_weights_symmetric_witness :
    SymmG (applyGraphOps ([], []) graphOpsW).1 ∧
    SymmR (applyGraphOps ([], []) graphOpsW).2 :=
  C5_relation_weights_symmetric graphOpsW [] []
    (fun _a _b => rfl) (fun _a _b => rfl)

/-! C8: bounded thread depth with front eviction. -/

theorem updateThread_activeNodes (thread : TopicThread) (graph : Graph)
    (topic : String) (context : Option ThreadContext) (now : ℚ) :
    (updateThread thread graph topic context now).1.ActiveNodes =
      if containsStr thread.ActiveNodes topic then thread.ActiveNodes
      else if (thread.ActiveNodes ++ [topic]).length > maxThreadDepth
        then (thread.ActiveNodes ++ [topic]).drop 1
        else thread.ActiveNodes ++ [topic] := by
  cases context with
  | none =>
    by_cases hc : containsStr thread.ActiveNodes topic
    · simp [updateThread, hc]
    · simp [updateThread, hc]
  | some c =>
    by_cases hc : containsStr thread.ActiveNodes topic
    · simp [updateThread, hc]
    · simp [updateThread, hc]

def firstTopicS : String := "t1"

def laterTopicsW : List String := ["t2", "t3", "t4", "t5", "t6"]

/-- A thread created for topic t1 and then updated with five further
distinct topics (six detections in total). -/
def sixUpdates : TopicThread × Graph :=
  laterTopicsW.foldl (fun s topic => updateThread s.1 s.2 topic none 0)
    (createNewThread firstTopicS none 0, [])

/-- C8: six distinct topic updates to one thread (maxThreadDepth = 5) leave
exactly five active nodes with the first-added topic evicted; in general
one update never grows the list beyond maxThreadDepth, and at capacity the
eviction drops the front entry. -/
theorem C8_thread_depth_eviction :
    (sixUpdates.1.ActiveNodes = ["t2", "t3", "t4", "t5", "t6"] ∧
     sixUpdates.1.ActiveNodes.length = maxThreadDepth ∧
     firstTopicS ∉ sixUpdates.1.ActiveNodes) ∧
    (∀ (thread : TopicThread) (graph : Graph) (topic : String)
        (context : Option ThreadContext) (now : ℚ),
      thread.ActiveNodes.length ≤ maxThreadDepth →
      (updateThread thread graph topic context now).1.ActiveNodes.length ≤
        maxThreadDepth) ∧
    (∀ (thread : TopicThread) (graph : Graph) (topic : String)
        (context : Option ThreadContext) (now : ℚ),
      containsStr thread.ActiveNodes topic = false →
      thread.ActiveNodes.length = maxThreadDepth →
      (updateThread thread graph topic context now).1.ActiveNodes =
        thread.ActiveNodes.tail ++ [topic]) := by
  refine ⟨by decide, ?_, ?_⟩
  · intro thread graph topic context now h
    rw [updateThread_activeNodes]
    by_cases hc : containsStr thread.ActiveNodes topic
    · rw [if_pos hc]
      exact h
    · rw [if_neg hc]
      by_cases hl : (thread.ActiveNodes ++ [topic]).length > maxThreadDepth
      · rw [if_pos hl]
        simp only [List.length_drop, List.length_append, List.length_singleton,
          maxThreadDepth] at h ⊢
        omega
      · rw [if_neg hl]
        simp only [List.length_append, List.length_singleton, maxThreadDepth,
          gt_iff_lt, not_lt] at hl ⊢
        omega
  · intro thread graph topic context now hc hlen
    rw [updateThread_activeNodes, if_neg (by simp [hc]), if_pos
      (by simp [List.length_append, hlen, maxThreadDepth])]
    rw [List.drop_append_of_le_length (by rw [hlen]; norm_num [maxThreadDepth]),
      List.drop_one]

def threadFullW : TopicThread :=
  { ID := "", ActiveNodes := ["t2", "t3", "t4", "t5", "t6"], MainTopic := "",
    StartTime := 0, LastActive := 0, Depth := 1, Context := none }

def topicNewS : String := "t7"

theorem C8_thread_depth_eviction_witness :
    threadFullW.ActiveNodes.length ≤ maxThreadDepth ∧
    (updateThread threadFullW [] topicNewS none 0).1.ActiveNodes.length ≤
      maxThreadDepth ∧
    containsStr threadFullW.ActiveNodes topicNewS = false ∧
    threadFullW.ActiveNodes.length = maxThreadDepth ∧
    (updateThread threadFullW [] topicNewS none 0).1.ActiveNodes =
      threadFullW.ActiveNodes.tail ++ [topicNewS] :=
  ⟨by decide,
   C8_thread_depth_eviction.2.1 threadFullW [] topicNewS none 0 (by decide),
   by decide,
   by decide,
   C8_thread_depth_eviction.2.2 threadFullW [] topicNewS none 0
     (by decide) (by decide)⟩

/-! Timeline memory: relationship ledger (part_018 of the unnamed sources,
timeline_memory_helpers.go). -/

def personalS : String := "personal"

def emotionalS : String := "emotional"

def relationshipS : String := "relationship"

def trustS : String := "trust"

def intimacyS : String := "intimacy"

/-- MemoryEvent restricted to the fields the relationship updates read;
the source field named Type is rendered Ty. -/
structure MemoryEvent where
  ID : String
  Ty : String
  Content : String
  Timestamp : ℚ
  Importance : ℚ
  Emotions : ScoreMap

/-- calculateTrustImpact (timeline_memory_helpers.go, lines 34-52).  The
switch names PersonalEvent ("personal"), EmotionalEvent ("emotional") and
RelationshipEvent; the last constant is declared nowhere in the sources
(RelationshipEvent is a struct type) — it is modelled as the event-type
string "relationship" (RelationshipInteractionEvent), the type of the
event that updateRelationshipMetrics builds; the claim's invariant holds
whichever string it denotes, since every branch is non-negative. -/
def calculateTrustImpact (event : MemoryEvent) : ℚ :=
  let impact : ℚ :=
    if event.Ty == personalS then 1/20
    else if event.Ty == emotionalS then 1/10
    else if event.Ty == relationshipS then 3/20
    else 0
  match lookupOpt event.Emotions trustS with
  | some emotion => impact * (1 + emotion)
  | none => impact

/-- calculateIntimacyImpact (timeline_memory_helpers.go, lines 54-72). -/
def calculateIntimacyImpact (event : MemoryEvent) : ℚ :=
  let impact : ℚ :=
    if event.Ty == personalS then 1/10
    else if event.Ty == emotionalS then 3/20
    else if event.Ty == relationshipS then 1/5
    else 0
  match lookupOpt event.Emotions intimacyS with
  | some emotion => impact * (1 + emotion)
  | none => impact

/-- RelationshipMemory (part_018, lines 156-165). -/
structure RelationshipMemory where
  UserID : String
  Events : List String
  Milestones : List String
  Trust : ℚ
  Intimacy : ℚ
  SharedTopics : List String
  Preferences : ScoreMap
  LastInteraction : ℚ

/-- updateRelationshipMetrics (part_018, lines 290-306): builds a
"relationship" event with an empty emotion map, then clamps the additive
trust/intimacy updates into [0,1]. -/
def updateRelationshipMetrics (rel : RelationshipMemory)
    (interactionTimestamp : ℚ) : RelationshipMemory :=
  let event : MemoryEvent :=
    { ID := "", Ty := relationshipS, Content := "",
      Timestamp := interactionTimestamp, Importance := 0, Emotions := [] }
  let trustImpact := calculateTrustImpact event
  let intimacyImpact := calculateIntimacyImpact event
  { rel with
      Trust := max 0 (min 1 (rel.Trust + trustImpact))
      Intimacy := max 0 (min 1 (rel.Intimacy + intimacyImpact))
      LastInteraction := interactionTimestamp }

/-- UpdateRelationship (part_018, lines 232-253): create the ledger entry
with Trust 0.5 / Intimacy 0.1 if absent, then update its metrics.
(isSignificantInteraction returns false, so no event is stored.) -/
def UpdateRelationship (relationships : List (String × RelationshipMemory))
    (userID : String) (interactionTimestamp : ℚ) :
    List (String × RelationshipMemory) :=
  let rel :=
    match lookupOpt relationships userID with
    | some r => r
    | none =>
      { UserID := userID, Events := [], Milestones := [], Trust := 1/2,
        Intimacy := 1/10, SharedTopics := [], Preferences := [],
        LastInteraction := 0 }
  setA relationships userID (updateRelationshipMetrics rel interactionTimestamp)

/-- Every stored ledger entry has trust and intimacy within [0,1]. -/
def RelInv (m : List (String × RelationshipMemory)) : Prop :=
  ∀ u r, lookupOpt m u = some r →
    0 ≤ r.Trust ∧ r.Trust ≤ 1 ∧ 0 ≤ r.Intimacy ∧ r.Intimacy ≤ 1

theorem clamp01_bounds (x : ℚ) : 0 ≤ max 0 (min 1 x) ∧ max 0 (min 1 x) ≤ 1 :=
  ⟨le_max_left 0 _, max_le (by norm_num) (min_le_left 1 x)⟩

theorem le_clamp01_add (t d : ℚ) (ht : t ≤ 1) (hd : 0 ≤ d) :
    t ≤ max 0 (min 1 (t + d)) :=
  le_trans (le_min ht (le_add_of_nonneg_right hd)) (le_max_right 0 _)

theorem metrics_trust (rel : RelationshipMemory) (ts : ℚ) :
    (updateRelationshipMetrics rel ts).Trust =
      max 0 (min 1 (rel.Trust + 3/20)) := rfl

theorem metrics_intimacy (rel : RelationshipMemory) (ts : ℚ) :
    (updateRelationshipMetrics rel ts).Intimacy =
      max 0 (min 1 (rel.Intimacy + 1/5)) := rfl

/-- C9: UpdateRelationship keeps every user's trust and intimacy in [0,1]
(also across arbitrary call sequences), and an existing user's trust and
intimacy never decrease across a call. -/
theorem C9_relationship_monotone_bounded :
    (∀ (m : List (String × RelationshipMemory)) (u : String) (ts : ℚ),
      RelInv m → RelInv (UpdateRelationship m u ts)) ∧
    (∀ (m : List (String × RelationshipMemory)) (u : String) (ts : ℚ)
        (r r' : RelationshipMemory),
      RelInv m → lookupOpt m u = some r →
      lookupOpt (UpdateRelationship m u ts) u = some r' →
      r.Trust ≤ r'.Trust ∧ r.Intimacy ≤ r'.Intimacy) ∧
    (∀ (calls : List (String × ℚ)) (m : List (String × RelationshipMemory)),
      RelInv m →
      RelInv (calls.foldl (fun mm c => UpdateRelationship mm c.1 c.2) m)) := by
  have hstep : ∀ (m : List (String × RelationshipMemory)) (u : String) (ts : ℚ),
      RelInv m → RelInv (UpdateRelationship m u ts) := by
    intro m u ts hInv u' r' hr'
    simp only [UpdateRelationship] at hr'
    rw [lookupOpt_setA] at hr'
    by_cases hu : u' = u
    · rw [if_pos hu] at hr'
      injection hr' with h
      rw [← h, metrics_trust, metrics_intimacy]
      exact ⟨(clamp01_bounds _).1, (clamp01_bounds _).2,
        (clamp01_bounds _).1, (clamp01_bounds _).2⟩
    · rw [if_neg hu] at hr'
      exact hInv u' r' hr'
  refine ⟨hstep, ?_, ?_⟩
  · intro m u ts r r' hInv hr hr'
    have hval : lookupOpt (UpdateRelationship m u ts) u =
        some (updateRelationshipMetrics r ts) := by
      simp only [UpdateRelationship]
      rw [hr, lookupOpt_setA, if_pos rfl]
    rw [hval] at hr'
    injection hr' with h
    rw [← h, metrics_trust, metrics_intimacy]
    have hb := hInv u r hr
    constructor
    · exact le_clamp01_add r.Trust (3/20) hb.2.1 (by norm_num)
    · exact le_clamp01_add r.Intimacy (1/5) hb.2.2.2 (by norm_num)
  · intro calls
    induction calls with
    | nil =>
      intro m hInv
      exact hInv
    | cons c rest ih =>
      intro m hInv
      exact ih _ (hstep m c.1 c.2 hInv)

def userS : String := "lyra"

def relW : RelationshipMemory :=
  { UserID := userS, Events := [], Milestones := [], Trust := 1/2,
    Intimacy := 1/10, SharedTopics := [], Preferences := [],
    LastInteraction := 0 }

def relMapW : List (String × RelationshipMemory) := [(userS, relW)]

theorem relMapW_inv : RelInv relMapW := by
  intro u r h
  rw [relMapW, lookupOpt_cons] at h
  by_cases hu : (userS == u) = true
  · rw [if_pos hu] at h
    injection h with h
    rw [← h]
    refine ⟨?_, ?_, ?_, ?_⟩ <;> norm_num [relW]
  · rw [if_neg hu] at h
    exact nomatch h

theorem C9_relationship_monotone_bounded_witness :
    RelInv (UpdateRelationship relMapW userS 0) ∧
    (relW.Trust ≤ (updateRelationshipMetrics relW 0).Trust ∧
     relW.Intimacy ≤ (updateRelationshipMetrics relW 0).Intimacy) ∧
    RelInv ([(userS, (0 : ℚ))].foldl
      (fun mm c => UpdateRelationship mm c.1 c.2) relMapW) :=
  ⟨C9_relationship_monotone_bounded.1 relMapW userS 0 relMapW_inv,
   C9_relationship_monotone_bounded.2.1 relMapW userS 0 relW
     (updateRelationshipMetrics relW 0) relMapW_inv rfl rfl,
   C9_relationship_monotone_bounded.2.2 [(userS, (0 : ℚ))] relMapW relMapW_inv⟩

end Shandris
